import Mathlib

/-!
Verification development for the Duke-Jia assistant serverless chatbot
(`api/ask.js`, hybrid-RAG version with dynamic entity indexing).

The JavaScript source is shallowly embedded below.  Strings are modelled as
Lean `String` / `List Char`; JavaScript numbers used in scores are modelled
as real numbers; the external collaborators (embedding engine, generation
engine, session store, wall clock, `Math.random`) are modelled as explicit
oracle inputs.  Each regular expression of the source is embedded through a
small explicit backtracking matcher (`Pat`) that follows JavaScript regex
semantics for the constructs actually used (character classes, greedy
quantifiers, alternation order, word boundaries).
-/

set_option maxRecDepth 10000

/-- ASCII apostrophe, used to assemble source strings that contain one. -/
def apoS : String := String.singleton (Char.ofNat 39)

/-! ### Character classes (JavaScript semantics, ASCII ranges) -/

/-- JS `[a-z]` -/
def isLowerAZ (c : Char) : Bool := 'a' ≤ c && c ≤ 'z'

/-- JS `[A-Z]` -/
def isUpperAZ (c : Char) : Bool := 'A' ≤ c && c ≤ 'Z'

/-- JS `[a-zA-Z]` (what `[a-z]` matches under the `/i` flag) -/
def isLetterAZ (c : Char) : Bool := isLowerAZ c || isUpperAZ c

/-- JS `[0-9]` -/
def isDigit09 (c : Char) : Bool := '0' ≤ c && c ≤ '9'

/-- JavaScript `\w`: `[A-Za-z0-9_]` -/
def isWordChar (c : Char) : Bool := isLetterAZ c || isDigit09 c || c = '_'

/-- The class `[\w.+-]` used by `GENERIC_MODEL_RE`. -/
def isMChar (c : Char) : Bool := isWordChar c || c = '.' || c = '+' || c = '-'

/-- JavaScript `\s` (the whitespace code points relevant to this corpus). -/
def isJsSpace (c : Char) : Bool :=
  c = ' ' || c = '\t' || c = '\n' || c = '\r' ||
  c = Char.ofNat 11 || c = Char.ofNat 12 || c = Char.ofNat 0xA0 ||
  c = Char.ofNat 0x2028 || c = Char.ofNat 0x2029 || c = Char.ofNat 0xFEFF

/-- Devanagari block test used by `detectResponseMode` (`[ऀ-ॿ]`). -/
def isDevanagari (c : Char) : Bool := 0x900 ≤ c.toNat && c.toNat ≤ 0x97F

/-- ASCII lower-casing, the fragment of `String.prototype.toLowerCase`
exercised by the corpus. -/
def lowerChar (c : Char) : Char :=
  if isUpperAZ c then Char.ofNat (c.toNat + 32) else c

/-! ### List-of-characters utilities -/

/-- JS `l₁` is a prefix of `l₂` (plain Boolean test). -/
def isPrefixL : List Char → List Char → Bool
  | [], _ => true
  | _ :: _, [] => false
  | a :: as, b :: bs => a = b && isPrefixL as bs

/-- JavaScript `String.prototype.includes`: `needle` occurs contiguously in
`hay`. -/
def containsL (hay needle : List Char) : Bool :=
  match hay with
  | [] => isPrefixL needle []
  | _ :: t => isPrefixL needle hay || containsL t needle

/-- JavaScript `String.prototype.endsWith`. -/
def endsWithL (hay needle : List Char) : Bool :=
  isPrefixL needle.reverse hay.reverse

/-- Length of the maximal run of characters satisfying `p`. -/
def runLen (p : Char → Bool) : List Char → Nat
  | [] => 0
  | c :: cs => if p c then runLen p cs + 1 else 0

/-- Drop trailing elements satisfying `p`. -/
def dropTrailing (p : Char → Bool) (l : List Char) : List Char :=
  (l.reverse.dropWhile p).reverse

/-- JavaScript `String.prototype.trim`. -/
def trimL (l : List Char) : List Char :=
  dropTrailing isJsSpace (l.dropWhile isJsSpace)

/-- String-level wrappers. -/
def trimS (s : String) : String := String.mk (trimL s.data)

def containsS (hay needle : String) : Bool := containsL hay.data needle.data

def lowerS (s : String) : String := String.mk (s.data.map lowerChar)

def startsWithS (s pre : String) : Bool := isPrefixL pre.data s.data

def endsWithS (s post : String) : Bool := endsWithL s.data post.data

/-- JS `Array.prototype.join(sep)`. -/
def joinSep (sep : String) : List String → String
  | [] => ""
  | [s] => s
  | s :: rest => s ++ sep ++ joinSep sep rest

/-- JavaScript falsy-string chain `a || b`. -/
def jsOrS (a b : String) : String := if a = "" then b else a

/-! ### A small backtracking matcher

The regexes used by `ask.js` only combine literals, single-character
classes, greedy quantifiers over classes, option groups and alternation.
`matchPat` enumerates the lengths a pattern can consume from the head of
the input, in exactly the preference order of a backtracking JavaScript
engine (alternatives left to right, quantifiers longest first). -/

inductive Pat where
  | lit : List Char → Pat
  | cls : (Char → Bool) → Pat
  | seq : Pat → Pat → Pat
  | alt : Pat → Pat → Pat
  | star : (Char → Bool) → Pat
  | plus : (Char → Bool) → Pat
  | opt : Pat → Pat
  | rep : (Char → Bool) → Nat → Nat → Pat

/-- Candidate consumed lengths, in engine preference order. -/
def matchPat : Pat → List Char → List Nat
  | .lit s, cs => if isPrefixL s cs then [s.length] else []
  | .cls p, cs =>
      match cs with
      | [] => []
      | c :: _ => if p c then [1] else []
  | .seq a b, cs =>
      (matchPat a cs).flatMap fun la =>
        (matchPat b (cs.drop la)).map fun lb => la + lb
  | .alt a b, cs => matchPat a cs ++ matchPat b cs
  | .star p, cs =>
      let k := runLen p cs
      (List.range (k + 1)).map fun i => k - i
  | .plus p, cs =>
      let k := runLen p cs
      (List.range k).map fun i => k - i
  | .opt a, cs => matchPat a cs ++ [0]
  | .rep p m n, cs =>
      let k := min (runLen p cs) n
      if k < m then []
      else (List.range (k - m + 1)).map fun i => k - i

/-- Word-boundary (`\b`) test between position `l` and the rest of the
input: `last` is the character just before the position (if any). -/
def boundaryAfter (consumed : List Char) (rest : List Char) : Bool :=
  let lastWord :=
    match consumed.getLast? with
    | none => false
    | some c => isWordChar c
  let nextWord :=
    match rest with
    | [] => false
    | c :: _ => isWordChar c
  lastWord != nextWord

/-- First length in engine order for which the trailing `\b` also holds. -/
def firstWithBoundary (cs : List Char) : List Nat → Option Nat
  | [] => none
  | l :: ls =>
      if boundaryAfter (cs.take l) (cs.drop l) then some l
      else firstWithBoundary cs ls

/-- Match `pat` against the start of `cs`, requiring a trailing `\b`. -/
def matchWithBoundary (pat : Pat) (cs : List Char) : Option Nat :=
  firstWithBoundary cs (matchPat pat cs)

/-! ### `GENERIC_MODEL_RE` — the model-token miner

`/\b([a-z]{1,6}[\w.+-]*\d[\w.+-]*|[a-z]*\d[\w.+-]{1,15})\b/gi` -/

def genericModelPat : Pat :=
  .alt
    (.seq (.rep isLetterAZ 1 6)
      (.seq (.star isMChar) (.seq (.cls isDigit09) (.star isMChar))))
    (.seq (.star isLetterAZ) (.seq (.cls isDigit09) (.rep isMChar 1 15)))

/-- The leading `\b`: boundary between the previous character and the rest. -/
def scanStartOk (pre : Option Char) (rest : List Char) : Bool :=
  let prevWord := match pre with | none => false | some c => isWordChar c
  let nextWord := match rest with | [] => false | c :: _ => isWordChar c
  prevWord != nextWord

def matchModelAt (pre : Option Char) (rest : List Char) : Option Nat :=
  if scanStartOk pre rest then matchWithBoundary genericModelPat rest else none

/-- The `/g` scan loop of `GENERIC_MODEL_RE.exec`: leftmost matches,
resuming after each match.  `fuel` is the initial input length; every step
consumes at least one character, so the fuel never runs out. -/
def scanAux : Nat → Option Char → List Char → List (List Char)
  | 0, _, _ => []
  | _ + 1, _, [] => []
  | fuel + 1, pre, c :: cs =>
      match matchModelAt pre (c :: cs) with
      | some l =>
          let tok := (c :: cs).take l
          tok :: scanAux fuel tok.getLast? ((c :: cs).drop l)
      | none => scanAux fuel (some c) cs

/-- All matches of `GENERIC_MODEL_RE` in the text, in order. -/
def scanModels (cs : List Char) : List (List Char) := scanAux cs.length none cs

/-! ### `normModelToken` and the mining filters -/

def trimDashes (l : List Char) : List Char :=
  dropTrailing (· = '-') (l.dropWhile (· = '-'))

/-- JS `normModelToken`: lower-case, drop whitespace, `_`/en-dash → `-`, strip
parentheses, keep `[a-z0-9.+-]`, trim dashes. -/
def normTok (s : List Char) : List Char :=
  let l := s.map lowerChar
  let l := l.filter (fun c => !(isJsSpace c))
  let l := l.map (fun c => if c = '_' || c = Char.ofNat 0x2013 then '-' else c)
  let l := l.filter (fun c => c ≠ '(' && c ≠ ')')
  let l := l.filter (fun c => isLowerAZ c || isDigit09 c || c = '.' || c = '+' || c = '-')
  trimDashes l

def normTokS (s : String) : String := String.mk (normTok s.data)

def hasDigitL (l : List Char) : Bool := l.any isDigit09

/-- JS `LIKELY_PREFIX` (`/i` flag: tested on the lower-cased raw token). -/
def likelyPfx (raw : List Char) : Bool :=
  let l := raw.map lowerChar
  ["dy", "dukejia", "duke", "cs", "sk", "pe", "halo", "es", "tajima",
    "highlead", "juki", "dyk", "dy-", "dy_"].any (fun p => isPrefixL p.data l)

/-- JS `/^[a-z]+\d/` (no `/i` flag): one or more lower-case letters followed
immediately by a digit. -/
def afterLetters : List Char → Bool
  | [] => false
  | c :: rest => if isLowerAZ c then afterLetters rest else isDigit09 c

def lettersThenDigit (raw : List Char) : Bool :=
  match raw with
  | [] => false
  | c :: rest => isLowerAZ c && afterLetters rest

/-- The acceptance filter shared by the miner and the extraction fallback. -/
def goodShapeRaw (raw : List Char) : Bool :=
  likelyPfx raw || raw.any (fun c => c = '-' || c = '+' || c = '.') || lettersThenDigit raw

/-- JS `/^v\d{1,2}$/` -/
def isVShort (n : List Char) : Bool :=
  match n with
  | 'v' :: rest => (rest.length = 1 || rest.length = 2) && rest.all isDigit09
  | _ => false

/-! ### Knowledge entries and the alias map -/

/-- One corpus record from `data/index.json` (`VECTORS`).  Absent JSON
fields are modelled as `""` (they are only ever used through the falsy
chains `a || b`). -/
structure KBEntry where
  textOriginal : String := ""
  textCleaned : String := ""
  text : String := ""
  modelField : String := ""
  metaModel : String := ""
  metaModelCap : String := ""
  embedding : List ℝ := []

/-- JS `String(v.text_original || v.text_cleaned || v.text || "")` -/
def entryText (v : KBEntry) : String :=
  jsOrS v.textOriginal (jsOrS v.textCleaned v.text)

/-- JS `v.model || v.meta?.model || v.meta?.Model || null` -/
def entryMetaModel (v : KBEntry) : String :=
  jsOrS v.modelField (jsOrS v.metaModel v.metaModelCap)

/-- A JavaScript `Map<string, Set<string>>`, as an insertion-ordered
association list with insertion-ordered duplicate-free buckets. -/
abbrev AliasMap := List (String × List String)

def amGet (m : AliasMap) (k : String) : Option (List String) :=
  match m with
  | [] => none
  | (k', v) :: rest => if k' = k then some v else amGet rest k

def amHas (m : AliasMap) (k : String) : Bool := (amGet m k).isSome

def amSet (m : AliasMap) (k : String) (v : List String) : AliasMap :=
  match m with
  | [] => [(k, v)]
  | (k', v') :: rest => if k' = k then (k, v) :: rest else (k', v') :: amSet rest k v

/-- JS `Set.prototype.add` (no-op on duplicates, appends otherwise). -/
def addUniq (l : List String) (x : String) : List String :=
  if x ∈ l then l else l ++ [x]

def addAllUniq (l : List String) (xs : List String) : List String :=
  xs.foldl addUniq l

def stripChar (c : Char) (s : String) : String := String.mk (s.data.filter (· ≠ c))

def dashDotPlusToSpace (s : String) : String :=
  String.mk (s.data.map fun c => if c = '-' || c = '.' || c = '+' then ' ' else c)

/-- The mechanical alias variants generated for a mined token. -/
def variantsOf (n : String) : List String :=
  addAllUniq []
    [n, stripChar '-' n, stripChar '.' n, stripChar '+' n, dashDotPlusToSpace n]

/-- The accepted, normalized tokens mined from one chunk (`seenHere`). -/
def minedTokens (txt : String) : List String :=
  (scanModels txt.data).foldl
    (fun acc raw =>
      if !hasDigitL raw then acc
      else if raw.length < 3 || raw.length > 24 then acc
      else
        let n := normTok raw
        if n.length < 3 then acc
        else if goodShapeRaw raw then addUniq acc (String.mk n)
        else acc)
    []

/-! ### `initModelIndexOnce` — the dynamic entity indexer -/

/-- The explicit-metadata ingestion of one entry (`metaModel` block). -/
def metaStep (v : KBEntry) (st : List String × AliasMap) : List String × AliasMap :=
  let mm := entryMetaModel v
  if mm = "" then st
  else
    let n := normTokS mm
    if n ≠ "" && hasDigitL n.data then
      (addUniq st.1 n, if amHas st.2 n then st.2 else amSet st.2 n [n])
    else st

/-- JS `localSet.add(n); if (!aliasMap.has(n)) aliasMap.set(n, new Set());
aliasMap.get(n).add(n);` for one mined token. -/
def mineAdd (st : List String × AliasMap) (n : String) : List String × AliasMap :=
  let m1 := if amHas st.2 n then st.2 else amSet st.2 n []
  let bucket := (amGet m1 n).getD []
  (addUniq st.1 n, amSet m1 n (addUniq bucket n))

/-- The alias-variation loop for one mined token. -/
def variantAdd (m : AliasMap) (n : String) : AliasMap :=
  let bucket := (amGet m n).getD []
  amSet m n (addAllUniq bucket (variantsOf n))

/-- Processing of a single corpus entry inside the build loop. -/
def stepEntry (st : List String × AliasMap) (v : KBEntry) : List String × AliasMap :=
  let txt := entryText v
  if txt = "" then st
  else
    let st1 := metaStep v st
    let seen := minedTokens txt
    let st2 := seen.foldl mineAdd st1
    (st2.1, seen.foldl variantAdd st2.2)

/-- The pure build (`MODEL_SET`, `MODEL_ALIASES`) from the corpus. -/
def buildModelIndex (vectors : List KBEntry) : List String × AliasMap :=
  vectors.foldl stepEntry ([], [])

/-- The module-level index state guarded by `MODEL_INIT_DONE`. -/
structure ModelIndexState where
  modelSet : List String
  modelAliases : AliasMap
  initDone : Bool

/-- JS `initModelIndexOnce`: latch-guarded build of the model index. -/
def initModelIndexOnce (st : ModelIndexState) (vectors : List KBEntry) : ModelIndexState :=
  if st.initDone then st
  else
    { modelSet := (buildModelIndex vectors).1
      modelAliases := (buildModelIndex vectors).2
      initDone := true }

/-! ### `extractEntities` and `kwScoreFor` -/

/-- One session-history turn (`{ ts, role, text }`). -/
structure Turn where
  role : String := ""
  text : String := ""

/-- JS `extractEntities(text, history)` run against an already-built index. -/
def extractEntities (idx : List String × AliasMap) (text : String)
    (history : List Turn) : List String :=
  let combined := joinSep " " (text :: history.map (fun h => h.text))
  let lower := lowerS combined
  let found :=
    if idx.1.length > 0 then
      idx.1.foldl
        (fun acc canonical =>
          let aliases := (amGet idx.2 canonical).getD [canonical]
          if aliases.any (fun ali =>
              ali ≠ "" && ali.length ≥ 3 && containsS lower (lowerS ali))
          then addUniq acc canonical
          else acc)
        []
    else []
  let unseen := (scanModels combined.data).foldl
    (fun acc raw =>
      if raw.length < 3 || raw.length > 24 then acc
      else if !hasDigitL raw then acc
      else
        let n := normTok raw
        if n = [] then acc
        else if isVShort n then acc
        else if goodShapeRaw raw then addUniq acc (String.mk n)
        else acc)
    []
  addAllUniq found unseen

/-- The alias bag that `kwScoreFor` builds from the queried keywords. -/
def aliasBagOf (modelAliases : AliasMap) (kwList : List String) : List String :=
  kwList.foldl
    (fun bag kw =>
      let n := normTokS kw
      let bag := addUniq bag n
      let bag := addUniq bag (stripChar '-' n)
      let bag := addUniq bag (stripChar '.' n)
      let bag := addUniq bag (stripChar '+' n)
      let bag := addUniq bag (dashDotPlusToSpace n)
      match amGet modelAliases n with
      | some als => als.foldl (fun bag al => addUniq bag (lowerS al)) bag
      | none => bag)
    []

/-- JS `kwScoreFor(v, kwList)`: number of distinct bag aliases (of length at
least 3) occurring in the entry text. -/
def kwScoreFor (modelAliases : AliasMap) (v : KBEntry) (kwList : List String) : Nat :=
  if kwList.length = 0 then 0
  else
    let t := lowerS (entryText v)
    ((aliasBagOf modelAliases kwList).filter
      (fun ali => ali ≠ "" && ali.length ≥ 3 && containsS t ali)).length

/-! ### `cosineSim` and the hybrid ranking

Scores are JavaScript numbers; they are modelled as real numbers, so the
definitions below are `noncomputable` (concrete instances are evaluated in
proofs through `simp`/`norm_num`). -/

open scoped Classical

/-- Dot product over the common prefix (the `for (i < n)` loop body). -/
noncomputable def dotPrefix : List ℝ → List ℝ → ℝ
  | [], _ => 0
  | _, [] => 0
  | a :: as, b :: bs => a * b + dotPrefix as bs

/-- JS `cosineSim(a, b)`: computed over `min(a.length, b.length)` components;
the JavaScript `x || 1` guard on the product of magnitudes is the
`if ... then 1` branch. -/
noncomputable def cosineSim (a b : List ℝ) : ℝ :=
  let n := min a.length b.length
  let pa := a.take n
  let pb := b.take n
  let dot := dotPrefix pa pb
  let na := dotPrefix pa pa
  let nb := dotPrefix pb pb
  let denom := Real.sqrt na * Real.sqrt nb
  dot / (if denom = 0 then 1 else denom)

/-- JS `TOP_K` (default of `parseInt(process.env.TOP_K || "6")`). -/
def TOP_K : Nat := 6

/-- JS `MIN_OK_SCORE` (default of `parseFloat(process.env.MIN_OK_SCORE || "0.16")`). -/
noncomputable def MIN_OK_SCORE : ℝ := 0.16

/-- JS `HYBRID_BONUS = 0.12` -/
noncomputable def HYBRID_BONUS : ℝ := 0.12

/-- Ephemeral ranked-candidate view (`{ ...v, score, cos, kw }`). -/
structure Cand where
  entry : KBEntry
  cos : ℝ
  kw : Nat
  score : ℝ

/-- One candidate: `score = cos + (kw > 0 ? HYBRID_BONUS * Math.min(kw, 3) : 0)`. -/
noncomputable def mkCand (qVec : List ℝ) (modelAliases : AliasMap)
    (kwList : List String) (v : KBEntry) : Cand :=
  let cos := cosineSim qVec v.embedding
  let kw := kwScoreFor modelAliases v kwList
  let score := cos + (if kw > 0 then HYBRID_BONUS * (min kw 3 : ℕ) else 0)
  ⟨v, cos, kw, score⟩

/-- Stable insertion of a candidate into a descending-sorted list: the new
element goes before the first existing element whose score is not larger
(`Array.prototype.sort` with comparator `(a, b) => b.score - a.score` is
stable, ties keep original order). -/
noncomputable def insertDesc (x : Cand) : List Cand → List Cand
  | [] => [x]
  | y :: ys => if y.score ≤ x.score then x :: y :: ys else y :: insertDesc x ys

/-- Stable sort by descending `score`. -/
noncomputable def sortDesc : List Cand → List Cand
  | [] => []
  | x :: xs => insertDesc x (sortDesc xs)

/-- JS `VECTORS.map(score).sort(desc).slice(0, TOP_K)` -/
noncomputable def candidatesFor (qVec : List ℝ) (vectors : List KBEntry)
    (modelAliases : AliasMap) (kwList : List String) : List Cand :=
  (sortDesc (vectors.map (mkCand qVec modelAliases kwList))).take TOP_K

/-- JS `modelFoundInTop`: some top candidate lower-cased text contains one of
the sticky entities (the canonical tokens themselves). -/
def modelFoundInTop (cands : List Cand) (sticky : List String) : Bool :=
  decide (sticky.length > 0) &&
    cands.any (fun c => sticky.any (fun m => containsS (lowerS (entryText c.entry)) m))

/-- JS `topHit?.score ?? 0` -/
noncomputable def topScore (cands : List Cand) : ℝ :=
  match cands with
  | [] => 0
  | c :: _ => c.score

/-- The passability gate
`(topHit?.score ?? 0) >= (MIN_OK_SCORE - 0.04) || modelFoundInTop`. -/
noncomputable def passableFor (cands : List Cand) (sticky : List String) : Prop :=
  topScore cands ≥ MIN_OK_SCORE - 0.04 ∨ modelFoundInTop cands sticky = true

/-- The numbered context blocks `【i】 text`. -/
def numberBlocks (i : Nat) : List Cand → List String
  | [] => []
  | c :: cs => ("【" ++ toString i ++ "】 " ++ entryText c.entry) :: numberBlocks (i + 1) cs

/-- JS `candidates.map((s, i) => ...).join("\n\n")` -/
def contextOf (cands : List Cand) : String := joinSep "\n\n" (numberBlocks 1 cands)

/-! ### Response assembly & safety guard -/

/-- JS `const contactLine = "Please contact our sales team"` -/
def contactLine : String := "Please contact our sales team"

/-- The last-resort contact message for a truly empty context. -/
def contactFallbackMsg : String :=
  "Please contact our sales team at \nWhatsapp: +91 9350513789 \nEmbroidery@grouphca.com"

/-- Replacement when the generation output leaked the contact line while
context was non-empty. -/
def contactReplacedNudge (mode : String) : String :=
  if mode = "hinglish" then
    "Mujhe context mein exact details nahi mili. Agar aap model/feature thoda aur specific batayenge to main exact specs dikha sakta hoon."
  else
    "I didn’t see the exact details in the context. If you specify the model/feature a bit more, I can pull precise specs."

/-- Replacement when the generation output was empty but context existed. -/
def emptyGenNudge (mode : String) : String :=
  if mode = "hinglish" then
    "Main context se details nikal raha hoon—please model/feature thoda aur specific batayein."
  else
    "I’m using the knowledge base—please specify the model/feature you need."

/-- The post-generation safety guard (final `text` rewriting of the
handler). -/
def applySafety (genText context mode : String) : String :=
  let containsContact := containsS genText contactLine
  let ctxNonEmpty : Bool := !(trimS context == "")
  let text := if containsContact && ctxNonEmpty then contactReplacedNudge mode else genText
  if text = "" then
    if ctxNonEmpty then emptyGenNudge mode else contactFallbackMsg
  else text

/-- The deterministic "be more specific" tip of the not-passable branch. -/
def notPassableTip (mode : String) : String :=
  if mode = "hinglish" then
    "Is topic par Dukejia knowledge base mein clear info nahi mil rahi. Thoda specific likhiye—jaise " ++
      apoS ++ "DY-CS3000 specs" ++ apoS ++ " ya " ++ apoS ++ "1206H applications" ++ apoS ++ "."
  else
    "I couldn’t find clear context in the Dukejia knowledge base for that. Try being more specific—for example, " ++
      apoS ++ "DY-CS3000 specs" ++ apoS ++ " or " ++ apoS ++ "1206H applications" ++ apoS ++ "."

/-! ### Language-mode detection -/

def hinglishTokens : List String :=
  ["hai", "hain", "tha", "thi", "the", "kya", "kyu", "kyun", "kyunki", "kisi",
   "kis", "kaun", "kab", "kaha", "kahaan", "kaise", "nahi", "nahin", "ka",
   "ki", "ke", "mein", "me", "mai", "mei", "hum", "ap", "aap", "tum", "kr",
   "kar", "karo", "karna", "chahiye", "bhi", "sirf", "jaldi", "kitna", "ho",
   "hoga", "hogaya", "krdo", "pls", "plz", "yaar", "shukriya", "dhanyavaad",
   "dhanyavad"]

/-- One token scores iff surrounded by spaces, at the start/end, or equal to
the whole text. -/
def tokenHit (text t : String) : Bool :=
  containsS text (" " ++ t ++ " ") || startsWithS text (t ++ " ") ||
    endsWithS text (" " ++ t) || text == t

def isCueChar (c : Char) : Bool := c = ':' || c = ')' || c = '(' || c = '!' || c = '?'

/-- Count of matches of `/[:)(!?]{2,}|\.{3,}|😂|👍|🙏/g`. -/
def cueScanAux : Nat → List Char → Nat
  | 0, _ => 0
  | _ + 1, [] => 0
  | fuel + 1, c :: cs =>
      if isCueChar c then
        let k := runLen isCueChar (c :: cs)
        if k ≥ 2 then 1 + cueScanAux fuel ((c :: cs).drop k)
        else cueScanAux fuel cs
      else if c = '.' then
        let k := runLen (· = '.') (c :: cs)
        if k ≥ 3 then 1 + cueScanAux fuel ((c :: cs).drop k)
        else cueScanAux fuel cs
      else if c = '😂' || c = '👍' || c = '🙏' then 1 + cueScanAux fuel cs
      else cueScanAux fuel cs

def chatCueCount (text : String) : Nat := cueScanAux text.data.length text.data

/-- JS `detectResponseMode` — Hinglish vs. English heuristic.  The JavaScript
score is `hits + (cues ≥ 1 ? 0.5 : 0)` against threshold `2`; it is kept
here in half-units (`2·hits + cueFlag` against `4`), which is the same
comparison over exact arithmetic. -/
def detectResponseMode (q : String) : String :=
  let text := lowerS q
  if text.data.any isDevanagari then "hinglish"
  else
    let hits := hinglishTokens.foldl (fun acc t => if tokenHit text t then acc + 1 else acc) 0
    let scoreHalf := 2 * hits + (if chatCueCount text ≥ 1 then 1 else 0)
    if scoreHalf ≥ 4 then "hinglish" else "english"

/-! ### Small talk -/

def wsStar : Pat := .star isJsSpace

/-- JS `/^(hi+|h[iy]+|hello+|hey( there)?|hlo+|yo+|hola|namaste|namaskar|salaam|salam|👋|🙏)\b/i` -/
def pHello : Pat :=
  .alt (.seq (.lit "h".data) (.plus (· = 'i')))
  (.alt (.seq (.lit "h".data) (.plus (fun c => c = 'i' || c = 'y')))
  (.alt (.seq (.lit "hell".data) (.plus (· = 'o')))
  (.alt (.seq (.lit "hey".data) (.opt (.lit " there".data)))
  (.alt (.seq (.lit "hl".data) (.plus (· = 'o')))
  (.alt (.seq (.lit "y".data) (.plus (· = 'o')))
  (.alt (.lit "hola".data)
  (.alt (.lit "namaste".data)
  (.alt (.lit "namaskar".data)
  (.alt (.lit "salaam".data)
  (.alt (.lit "salam".data)
  (.alt (.lit "👋".data) (.lit "🙏".data))))))))))))

def pMorning : Pat :=
  .alt (.seq (.lit "good".data) (.seq wsStar (.lit "morning".data))) (.lit "gm".data)

def pAfternoon : Pat :=
  .alt (.seq (.lit "good".data) (.seq wsStar (.lit "afternoon".data))) (.lit "ga".data)

def pEvening : Pat :=
  .alt (.seq (.lit "good".data) (.seq wsStar (.lit "evening".data))) (.lit "ge".data)

/-- JS `/^(ok+|okay+|okk+|hmm+|haan+|ha+|sure|done|great|nice|cool|perfect|thik|theek|fine)\b/i` -/
def pAck : Pat :=
  .alt (.seq (.lit "o".data) (.plus (· = 'k')))
  (.alt (.seq (.lit "oka".data) (.plus (· = 'y')))
  (.alt (.seq (.lit "ok".data) (.plus (· = 'k')))
  (.alt (.seq (.lit "hm".data) (.plus (· = 'm')))
  (.alt (.seq (.lit "haa".data) (.plus (· = 'n')))
  (.alt (.seq (.lit "h".data) (.plus (· = 'a')))
  (.alt (.lit "sure".data)
  (.alt (.lit "done".data)
  (.alt (.lit "great".data)
  (.alt (.lit "nice".data)
  (.alt (.lit "cool".data)
  (.alt (.lit "perfect".data)
  (.alt (.lit "thik".data)
  (.alt (.lit "theek".data) (.lit "fine".data))))))))))))))

/-- JS `/^(thanks|thank\s*you|thx|tnx|ty|much\s*(appreciated|thanks)|appreciate(d)?|shukriya|dhanyavaad|dhanyavad)\b/i` -/
def pThanks : Pat :=
  .alt (.lit "thanks".data)
  (.alt (.seq (.lit "thank".data) (.seq wsStar (.lit "you".data)))
  (.alt (.lit "thx".data)
  (.alt (.lit "tnx".data)
  (.alt (.lit "ty".data)
  (.alt (.seq (.lit "much".data) (.seq wsStar (.alt (.lit "appreciated".data) (.lit "thanks".data))))
  (.alt (.seq (.lit "appreciate".data) (.opt (.lit "d".data)))
  (.alt (.lit "shukriya".data)
  (.alt (.lit "dhanyavaad".data) (.lit "dhanyavad".data)))))))))

/-- JS `/^(bye|bb|good\s*bye|goodbye|see\s*ya|see\s*you|take\s*care|tc|ciao|gn)\b/i` -/
def pBye : Pat :=
  .alt (.lit "bye".data)
  (.alt (.lit "bb".data)
  (.alt (.seq (.lit "good".data) (.seq wsStar (.lit "bye".data)))
  (.alt (.lit "goodbye".data)
  (.alt (.seq (.lit "see".data) (.seq wsStar (.lit "ya".data)))
  (.alt (.seq (.lit "see".data) (.seq wsStar (.lit "you".data)))
  (.alt (.seq (.lit "take".data) (.seq wsStar (.lit "care".data)))
  (.alt (.lit "tc".data)
  (.alt (.lit "ciao".data) (.lit "gn".data)))))))))

/-- JS `/(who\s*are\s*you|what\s*can\s*you\s*do|help|menu|options|how\s*to\s*use)\b/i` -/
def pHelp : Pat :=
  .alt (.seq (.lit "who".data) (.seq wsStar (.seq (.lit "are".data) (.seq wsStar (.lit "you".data)))))
  (.alt (.seq (.lit "what".data) (.seq wsStar (.seq (.lit "can".data)
      (.seq wsStar (.seq (.lit "you".data) (.seq wsStar (.lit "do".data)))))))
  (.alt (.lit "help".data)
  (.alt (.lit "menu".data)
  (.alt (.lit "options".data)
  (.seq (.lit "how".data) (.seq wsStar (.seq (.lit "to".data) (.seq wsStar (.lit "use".data)))))))))

/-- Unanchored regex search (for the `help` pattern, which has no `^`). -/
def searchPat (p : Pat) : List Char → Bool
  | [] => (matchWithBoundary p []).isSome
  | c :: cs => (matchWithBoundary p (c :: cs)).isSome || searchPat p cs

/-- JS `smallTalkMatch(q)`: ordered first-match-wins pattern cascade. -/
def smallTalkMatch (q : String) : Option String :=
  let cs := (lowerS (trimS q)).data
  if (matchWithBoundary pHello cs).isSome then some "hello"
  else if (matchWithBoundary pMorning cs).isSome then some "morning"
  else if (matchWithBoundary pAfternoon cs).isSome then some "afternoon"
  else if (matchWithBoundary pEvening cs).isSome then some "evening"
  else if (matchWithBoundary pAck cs).isSome then some "ack"
  else if (matchWithBoundary pThanks cs).isSome then some "thanks"
  else if (matchWithBoundary pBye cs).isSome then some "bye"
  else if searchPat pHelp cs then some "help"
  else none

/-- JS `getISTGreeting` (hour supplied by the wall-clock oracle). -/
def getISTGreeting (hour : Nat) : String :=
  if hour < 5 then "Good night"
  else if hour < 12 then "Good morning"
  else if hour < 17 then "Good afternoon"
  else if hour < 21 then "Good evening"
  else "Good night"

def buildMinimalAssist (mode : String) : String :=
  if mode = "hinglish" then "Kaise madad kar sakta hoon?" else "How can I assist you?"

/-- The reply banks of `makeSmallTalkReply`. -/
def bankFor (mode kind : String) : List String :=
  if mode = "hinglish" then
    if kind = "morning" then ["Good morning! Aaj kis cheez mein help chahiye?"]
    else if kind = "afternoon" then ["Good afternoon! Duki ke baare mein kya jaana hai?"]
    else if kind = "evening" then ["Good evening! Machines/spares par madad chahiye to batayein."]
    else if kind = "thanks" then
      ["Shukriya! Aur kuch chahiye to pooch lijiye.",
       "Welcome ji! Brochure chahiye ya sales connect karu?"]
    else if kind = "bye" then
      ["Theek hai, milte hain! Jab chahein ping kar dijiyega.", "Bye! Din shubh rahe."]
    else if kind = "help" then
      ["Try: “Flagship features”, “Application-wise machine suggestion”, “Spares info”."]
    else if kind = "ack" then ["Thik hai! Ab kya puchhna hai?"]
    else
      ["Namaste 👋 Duki se related kya madad chahiye?",
       "Hello ji 👋 Main madad ke liye hoon—puchhiye."]
  else
    if kind = "morning" then ["Good morning! How can I help today?"]
    else if kind = "afternoon" then ["Good afternoon! How can I help today?"]
    else if kind = "evening" then ["Good evening! Need help with machines or spares?"]
    else if kind = "thanks" then
      ["You’re welcome! Anything else I can do?",
       "Happy to help! Need brochures or a sales connect?"]
    else if kind = "bye" then
      ["Take care! I’m here if you need me.", "Bye! Have a great day."]
    else if kind = "help" then
      ["Ask about flagship lines, suggestions by application, or spares."]
    else if kind = "ack" then ["Got it! What would you like next?"]
    else ["Hi! How can I help today?", "How can I help you?"]

/-- JS `pick(arr)` with the `Math.random` draw supplied as an index oracle. -/
def pickArr (arr : List String) (r : Nat) : String := arr.getD (r % arr.length) ""

def makeSmallTalkReply (kind mode : String) (r : Nat) : String :=
  pickArr (bankFor mode kind) r

/-- JS `/^(hi+|hello+|hey( there)?|hlo+|namaste|namaskar|salaam|gm|ga|ge|👋|🙏)$/i` -/
def pGreetWord : Pat :=
  .alt (.seq (.lit "h".data) (.plus (· = 'i')))
  (.alt (.seq (.lit "hell".data) (.plus (· = 'o')))
  (.alt (.seq (.lit "hey".data) (.opt (.lit " there".data)))
  (.alt (.seq (.lit "hl".data) (.plus (· = 'o')))
  (.alt (.lit "namaste".data)
  (.alt (.lit "namaskar".data)
  (.alt (.lit "salaam".data)
  (.alt (.lit "gm".data)
  (.alt (.lit "ga".data)
  (.alt (.lit "ge".data)
  (.alt (.lit "👋".data) (.lit "🙏".data)))))))))))

def isFullGreetingWord (t : String) : Bool :=
  let cs := (lowerS t).data
  (matchPat pGreetWord cs).any (fun l => l = cs.length)

/-- The hinglish lines of the IST-greeting branch. -/
def greetLine (kind mode : String) (istHour : Nat) : String :=
  if mode = "hinglish" then
    if kind = "morning" then "Good morning! Aaj kis cheez mein help chahiye?"
    else if kind = "afternoon" then "Good afternoon! Duki ke baare mein kya jaana hai?"
    else "Good evening! Machines/spares par madad chahiye to batayein."
  else getISTGreeting istHour ++ "! How can I help today?"

/-- JS `handleSmallTalkAll(q, { isFirstTurn })`, with `FRONTEND_GREETS` at its
default `true` and the random draw / IST hour as oracles. -/
def handleSmallTalkAll (q : String) (isFirstTurn : Bool) (r istHour : Nat) : Option String :=
  if q = "" then none
  else
    let mode := detectResponseMode q
    let trimmed := trimS q
    let short := String.mk ((lowerS trimmed).data.filter isLowerAZ)
    let quickKind : Option String :=
      if short ∈ ["hi", "hey", "yo", "sup"] then some "hello"
      else if short ∈ ["bye", "bb", "ciao", "gn"] then some "bye"
      else if short ∈ ["ty", "thx", "tnx", "tx"] then some "thanks"
      else if short = "gm" then some "morning"
      else if short = "ga" then some "afternoon"
      else if short = "ge" then some "evening"
      else none
    let isBlank := trimmed.data.filter (fun c => !(c = '?' || c = '.' || c = '!' || isJsSpace c)) = []
    let greetKinds : List String := ["hello", "morning", "afternoon", "evening"]
    match quickKind with
    | some k =>
        if isFirstTurn && k ∈ greetKinds then some (buildMinimalAssist mode)
        else some (makeSmallTalkReply k mode r)
    | none =>
        match smallTalkMatch trimmed with
        | some kind =>
            if isFirstTurn && kind ∈ greetKinds then some (buildMinimalAssist mode)
            else if kind = "morning" || kind = "afternoon" || kind = "evening" then
              some (greetLine kind mode istHour)
            else some (makeSmallTalkReply kind mode r)
        | none =>
            if isFirstTurn && (isBlank || isFullGreetingWord trimmed) then
              some (buildMinimalAssist mode)
            else none

/-! ### The request handler -/

/-- Request body (after transport parsing): `message ?? question`, the
`isFirstTurn` flag, and the session history returned by `loadHistory`. -/
structure AskRequest where
  message : String := ""
  isFirstTurn : Bool := false
  history : List Turn := []

/-- External collaborators: the embedding vector returned for the query,
the generation engine output (`result?.response?.text?.() || ""`), the
`Math.random` draw and the IST wall-clock hour. -/
structure Oracles where
  qVec : List ℝ := []
  genText : String := ""
  rand : Nat := 0
  istHour : Nat := 12

/-- Observable side effects of one request. -/
structure Effects where
  savedTurns : List (String × String) := []
  embedCalled : Bool := false
  genCalled : Bool := false

structure HandlerResult where
  status : Nat
  answer : Option String
  errorMsg : Option String
  effects : Effects

def missingMsgErr : String :=
  "Missing " ++ apoS ++ "message" ++ apoS ++ " or " ++ apoS ++ "question" ++ apoS ++ "."

def ragNotLoadedMsg : String :=
  "Embeddings not loaded on server. Add data/index.json (npm run embed) and redeploy."

/-- Sticky entities of a request (`extractEntities(q, history)` against the
index built from the loaded corpus). -/
def stickyFor (vectors : List KBEntry) (q : String) (history : List Turn) : List String :=
  extractEntities (buildModelIndex vectors) q history

/-- The RAG path of the handler (everything after the small-talk check). -/
noncomputable def ragPath (vectors : List KBEntry) (req : AskRequest) (o : Oracles)
    (q : String) : HandlerResult :=
  if vectors.length = 0 then
    ⟨500, none, some ragNotLoadedMsg,
      ⟨[("user", q), ("assistant", ragNotLoadedMsg)], false, false⟩⟩
  else
    let mode := detectResponseMode q
    let sticky := stickyFor vectors q req.history
    if o.qVec.length = 0 then
      ⟨500, none, some "Embedding failed",
        ⟨[("user", q), ("assistant", "Embedding failed")], true, false⟩⟩
    else
      let cands := candidatesFor o.qVec vectors (buildModelIndex vectors).2 sticky
      if passableFor cands sticky then
        let text := applySafety o.genText (contextOf cands) mode
        ⟨200, some text, none, ⟨[("user", q), ("assistant", text)], true, true⟩⟩
      else
        ⟨200, some (notPassableTip mode), none,
          ⟨[("user", q), ("assistant", notPassableTip mode)], true, false⟩⟩

/-- The request handler of `api/ask.js` (POST path, after body parsing). -/
noncomputable def runHandler (vectors : List KBEntry) (req : AskRequest) (o : Oracles) :
    HandlerResult :=
  let q := trimS req.message
  if q = "" && !req.isFirstTurn then
    ⟨400, none, some missingMsgErr, ⟨[], false, false⟩⟩
  else
    match handleSmallTalkAll q req.isFirstTurn o.rand o.istHour with
    | some t =>
        if t ≠ "" then
          ⟨200, some t, none, ⟨[("user", q), ("assistant", t)], false, false⟩⟩
        else ragPath vectors req o q
    | none => ragPath vectors req o q

/-! ### Definitions following the specification's wording (for comparison) -/

/-- Modelled from the spec: the entity-lock condition as §4.3 words it —
"any sticky entity alias literally appears in any of the top-K
candidate texts". -/
def specEntityLock (idx : List String × AliasMap) (cands : List Cand)
    (sticky : List String) : Prop :=
  ∃ canonical ∈ sticky, ∃ ali ∈ (amGet idx.2 canonical).getD [canonical],
    ∃ c ∈ cands, containsS (lowerS (entryText c.entry)) (lowerS ali) = true

/-- Modelled from the spec: pure vector-similarity ranking (each
candidate composite score is exactly its cosine similarity). -/
noncomputable def pureSimilarityRanking (qVec : List ℝ) (vectors : List KBEntry) : List Cand :=
  (sortDesc (vectors.map fun v =>
    ⟨v, cosineSim qVec v.embedding, 0, cosineSim qVec v.embedding⟩)).take TOP_K


/-! ### Demonstration fixtures (concrete corpora used by closed theorems) -/

def demoE1 : KBEntry := { textOriginal := "DY-CS3000 quilting machine price list", embedding := [-1, 0] }

def demoCorpus1 : List KBEntry := [demoE1]

def demoEA : KBEntry := { textOriginal := "DY_1206H", embedding := [-1, 0] }

def demoEB : KBEntry := { textOriginal := "The DY 1206H unit.", embedding := [-1, 0] }

def demoCorpus2 : List KBEntry := [demoEA, demoEB]

/-- The query vector used by the closed retrieval scenarios. -/
noncomputable def demoQVec : List ℝ := [1, 0]

def c3query : String := "hi, what" ++ apoS ++ "s your phone number"

/-- Magnitude of `x` over the common prefix with `y` (`Math.sqrt(na)`). -/
noncomputable def prefixMag (x y : List ℝ) : ℝ :=
  Real.sqrt (dotPrefix (x.take (min x.length y.length)) (x.take (min x.length y.length)))

/-- Every existing bucket contains its own key. -/
def KeyInvariant (m : AliasMap) : Prop :=
  ∀ k al, amGet m k = some al → k ∈ al

/-- Every token of the canonical set has a bucket, and buckets contain
their keys. -/
def IndexInv (st : List String × AliasMap) : Prop :=
  (∀ n ∈ st.1, amHas st.2 n = true) ∧ KeyInvariant st.2

/-- The ranked candidate produced for the scenario corpus entry. -/
noncomputable def candE1 : Cand := ⟨demoE1, -1, 1, -0.88⟩

/-- The ranked candidate produced for the counterexample entry `demoEA`. -/
noncomputable def candA : Cand := ⟨demoEA, -1, 0, -1⟩

/-- The ranked candidate produced for the counterexample entry `demoEB`. -/
noncomputable def candB : Cand := ⟨demoEB, -1, 1, -0.88⟩

/-! ### Sanity checks of the regex embedding -/

theorem matchPat_sanity :
    matchPat (.seq (.lit "h".data) (.plus (· = 'i'))) "hiii, x".data = [4, 3, 2] := by decide

theorem matchWithBoundary_sanity :
    matchWithBoundary (.seq (.lit "h".data) (.plus (· = 'i'))) "hi, there".data = some 2 := by
  decide

theorem scanModels_sanity1 :
    scanModels "DY-CS3000 quilting price".data = ["DY-CS3000".data] := by decide

theorem scanModels_sanity2 : scanModels "The DY 1206H unit.".data = ["1206H".data] := by decide

theorem scanModels_sanity3 : scanModels "cs3000 price".data = ["cs3000".data] := by decide

theorem minedTokens_sanity1 :
    minedTokens "DY-CS3000 quilting machine price list" = ["dy-cs3000"] := by decide

theorem minedTokens_sanity2 : minedTokens "DY_1206H" = ["dy-1206h"] := by decide

theorem minedTokens_sanity3 : minedTokens "The DY 1206H unit." = [] := by decide

theorem variantsOf_sanity :
    variantsOf "dy-cs3000" = ["dy-cs3000", "dycs3000", "dy cs3000"] := by decide

/-! ### Helper lemmas -/

theorem dotPrefix_self_nonneg (a : List ℝ) : 0 ≤ dotPrefix a a := by
  induction a with
  | nil => simp [dotPrefix]
  | cons x xs ih =>
      simpa [dotPrefix] using add_nonneg (mul_self_nonneg x) ih

theorem dotPrefix_comm (a b : List ℝ) : dotPrefix a b = dotPrefix b a := by
  induction a generalizing b with
  | nil => cases b <;> simp [dotPrefix]
  | cons x xs ih =>
      cases b with
      | nil => simp [dotPrefix]
      | cons y ys => simp [dotPrefix, ih, mul_comm]

theorem dotPrefix_eq_zero_left {a : List ℝ} (h : dotPrefix a a = 0) (b : List ℝ) :
    dotPrefix a b = 0 := by
  induction a generalizing b with
  | nil => cases b <;> simp [dotPrefix]
  | cons x xs ih =>
      cases b with
      | nil => simp [dotPrefix]
      | cons y ys =>
          have hx : x * x = 0 ∧ dotPrefix xs xs = 0 := by
            have := (add_eq_zero_iff_of_nonneg (mul_self_nonneg x)
              (dotPrefix_self_nonneg xs)).mp (by simpa [dotPrefix] using h)
            exact this
          have hx0 : x = 0 := by
            have := hx.1
            nlinarith [hx.1]
          simp [dotPrefix, hx0, ih hx.2]

theorem dotPrefix_take_min (a b : List ℝ) :
    dotPrefix (a.take (min a.length b.length)) (b.take (min a.length b.length))
      = dotPrefix a b := by
  induction a generalizing b with
  | nil => simp [dotPrefix]
  | cons x xs ih =>
      cases b with
      | nil => simp [dotPrefix]
      | cons y ys =>
          simp only [List.length_cons, Nat.succ_min_succ, List.take_succ_cons, dotPrefix]
          rw [ih ys]

theorem cosineSim_normal (a b : List ℝ) :
    cosineSim a b = dotPrefix a b /
      (if prefixMag a b * prefixMag b a = 0 then 1 else prefixMag a b * prefixMag b a) := by
  have hmagb : prefixMag b a =
      Real.sqrt (dotPrefix (b.take (min a.length b.length)) (b.take (min a.length b.length))) := by
    rw [prefixMag, Nat.min_comm]
  simp only [cosineSim, prefixMag, hmagb, dotPrefix_take_min]
  rw [Nat.min_comm b.length a.length]

theorem prefixMag_of_length_eq {x y : List ℝ} (h : y.length = x.length) :
    prefixMag x y = Real.sqrt (dotPrefix x x) := by
  rw [prefixMag, h, Nat.min_self, List.take_length]

theorem length_take_common (a b : List ℝ) :
    (b.take (min a.length b.length)).length = (a.take (min a.length b.length)).length := by
  simp only [List.length_take]
  omega

theorem prefixMag_take (a b : List ℝ) :
    prefixMag (a.take (min a.length b.length)) (b.take (min a.length b.length)) = prefixMag a b := by
  rw [prefixMag_of_length_eq (length_take_common a b), prefixMag]

theorem prefixMag_take_swap (a b : List ℝ) :
    prefixMag (b.take (min a.length b.length)) (a.take (min a.length b.length)) = prefixMag b a := by
  have h : (a.take (min a.length b.length)).length = (b.take (min a.length b.length)).length := by
    simp only [List.length_take]; omega
  rw [prefixMag_of_length_eq h, prefixMag, Nat.min_comm b.length a.length]

/-- C6: cosine similarity is computed over the first `min(len a, len b)`
components, is normalized by the product of the two prefix magnitudes when
that product is non-zero, and returns `0` (instead of dividing by zero)
whenever either vector has zero magnitude over the common prefix; the
function is total. -/
theorem c6_cosine_contract (a b : List ℝ) :
    cosineSim a b
        = cosineSim (a.take (min a.length b.length)) (b.take (min a.length b.length))
    ∧ (prefixMag a b * prefixMag b a ≠ 0 →
        cosineSim a b = dotPrefix a b / (prefixMag a b * prefixMag b a))
    ∧ ((prefixMag a b = 0 ∨ prefixMag b a = 0) → cosineSim a b = 0) := by
  refine ⟨?_, ?_, ?_⟩
  · rw [cosineSim_normal, cosineSim_normal (a.take _) (b.take _)]
    rw [prefixMag_take, prefixMag_take_swap, dotPrefix_take_min]
  · intro h
    rw [cosineSim_normal, if_neg h]
  · intro h
    have hdot : dotPrefix a b = 0 := by
      rcases h with h | h
      · have hna : dotPrefix (a.take (min a.length b.length))
            (a.take (min a.length b.length)) = 0 := by
          rw [prefixMag] at h
          exact (Real.sqrt_eq_zero (dotPrefix_self_nonneg _)).mp h
        rw [← dotPrefix_take_min]
        exact dotPrefix_eq_zero_left hna _
      · have hnb : dotPrefix (b.take (min a.length b.length))
            (b.take (min a.length b.length)) = 0 := by
          rw [prefixMag, Nat.min_comm b.length a.length] at h
          exact (Real.sqrt_eq_zero (dotPrefix_self_nonneg _)).mp h
        rw [← dotPrefix_take_min, dotPrefix_comm]
        exact dotPrefix_eq_zero_left hnb _
    rw [cosineSim_normal, hdot, zero_div]

/-- Witness for C6 at the concrete input `a = [0,0]`, `b = [3,4]`. -/
theorem c6_witness :
    prefixMag ([0, 0] : List ℝ) [3, 4] = 0 ∧ cosineSim ([0, 0] : List ℝ) [3, 4] = 0 := by
  have hmag : prefixMag ([0, 0] : List ℝ) [3, 4] = 0 := by
    simp only [prefixMag, List.length_cons, List.length_nil, Nat.min_self, List.take_length,
      dotPrefix]
    norm_num [Real.sqrt_zero]
  exact ⟨hmag, (c6_cosine_contract [0, 0] [3, 4]).2.2 (Or.inl hmag)⟩

/-- C7: the model-token indexer is idempotent — building the index twice
from the same corpus leaves `canonicalTokens` and `aliasMap` identical, and
any invocation after a successful build is a no-op. -/
theorem c7_index_idempotent :
    (∀ (st : ModelIndexState) (vs : List KBEntry),
      initModelIndexOnce (initModelIndexOnce st vs) vs = initModelIndexOnce st vs)
    ∧ (∀ (st : ModelIndexState) (vs : List KBEntry),
        st.initDone = true → initModelIndexOnce st vs = st) := by
  constructor
  · intro st vs
    by_cases h : st.initDone
    · simp [initModelIndexOnce, h]
    · simp [initModelIndexOnce, h]
  · intro st vs h
    simp [initModelIndexOnce, h]

/-- Witness for C7: a no-op re-invocation on a concrete completed state,
and double-build from the concrete demo corpus. -/
theorem c7_witness :
    initModelIndexOnce ⟨["dy-cs3000"], [("dy-cs3000", ["dy-cs3000"])], true⟩ demoCorpus1
        = ⟨["dy-cs3000"], [("dy-cs3000", ["dy-cs3000"])], true⟩
    ∧ initModelIndexOnce (initModelIndexOnce ⟨[], [], false⟩ demoCorpus1) demoCorpus1
        = initModelIndexOnce ⟨[], [], false⟩ demoCorpus1 :=
  ⟨c7_index_idempotent.2 _ _ rfl, c7_index_idempotent.1 _ _⟩

/-- C9: a non-first-turn request whose trimmed message is empty is rejected
synchronously with a 400 client error, and has no side effects: no history
turn is written and neither the embedding nor the generation collaborator
is called. -/
theorem c9_malformed_reject (vs : List KBEntry) (req : AskRequest) (o : Oracles)
    (h1 : trimS req.message = "") (h2 : req.isFirstTurn = false) :
    runHandler vs req o = ⟨400, none, some missingMsgErr, ⟨[], false, false⟩⟩ := by
  simp [runHandler, h1, h2]

/-- Witness for C9 at a concrete whitespace-only request. -/
theorem c9_witness :
    runHandler [] { message := "   " } {} = ⟨400, none, some missingMsgErr, ⟨[], false, false⟩⟩ :=
  c9_malformed_reject [] _ _ (by decide) rfl

/-- C5: every candidate composite score is its cosine similarity plus a
bonus; the bonus is `0` exactly when no alias from the sticky-entity bag
occurs as a substring of the entry text, and otherwise it is
`HYBRID_BONUS` times the alias match count capped at `3`. -/
theorem c5_composite_score (q : List ℝ) (al : AliasMap) (kwList : List String) (v : KBEntry) :
    (mkCand q al kwList v).score
        = cosineSim q v.embedding +
          (if kwScoreFor al v kwList = 0 then 0
           else HYBRID_BONUS * (min (kwScoreFor al v kwList) 3 : ℕ))
    ∧ ((kwScoreFor al v kwList = 0) ↔
        ∀ ali ∈ aliasBagOf al kwList,
          ¬(ali ≠ "" ∧ 3 ≤ ali.length ∧ containsS (lowerS (entryText v)) ali = true)) := by
  constructor
  · by_cases h : kwScoreFor al v kwList = 0
    · simp [mkCand, h]
    · have hpos : 0 < kwScoreFor al v kwList := Nat.pos_of_ne_zero h
      simp [mkCand, h, hpos]
  · by_cases hk : kwList.length = 0
    · have hnil : kwList = [] := List.length_eq_zero.mp hk
      subst hnil
      simp [kwScoreFor, aliasBagOf]
    · rw [kwScoreFor, if_neg hk, List.length_eq_zero, List.filter_eq_nil_iff]
      constructor
      · intro h ali hmem hcontra
        have := h ali hmem
        simp only [ne_eq, Bool.and_eq_true, decide_eq_true_eq] at this
        exact this ⟨⟨hcontra.1, hcontra.2.1⟩, hcontra.2.2⟩
      · intro h ali hmem
        have := h ali hmem
        simp only [ne_eq, Bool.and_eq_true, decide_eq_true_eq]
        intro hcontra
        exact this ⟨hcontra.1.1, hcontra.1.2, hcontra.2⟩

/-- Witness for C5 at the concrete demo entry and sticky set. -/
theorem c5_witness :
    (mkCand demoQVec (buildModelIndex demoCorpus1).2 ["cs3000"] demoE1).score
        = cosineSim demoQVec demoE1.embedding +
          (if kwScoreFor (buildModelIndex demoCorpus1).2 demoE1 ["cs3000"] = 0 then 0
           else HYBRID_BONUS *
             (min (kwScoreFor (buildModelIndex demoCorpus1).2 demoE1 ["cs3000"]) 3 : ℕ)) :=
  (c5_composite_score demoQVec (buildModelIndex demoCorpus1).2 ["cs3000"] demoE1).1

/-- C10: with an empty sticky-entity set the keyword bonus is `0` for every
corpus entry, every candidate composite score equals its cosine
similarity, and the ranking reduces to pure vector-similarity order. -/
theorem c10_empty_sticky_pure_similarity :
    (∀ (al : AliasMap) (v : KBEntry), kwScoreFor al v [] = 0)
    ∧ (∀ (q : List ℝ) (vs : List KBEntry) (al : AliasMap),
        candidatesFor q vs al [] = pureSimilarityRanking q vs) := by
  have hkw : ∀ (al : AliasMap) (v : KBEntry), kwScoreFor al v [] = 0 := by
    intro al v; rfl
  refine ⟨hkw, ?_⟩
  intro q vs al
  have hmk : ∀ v : KBEntry, mkCand q al [] v
      = ⟨v, cosineSim q v.embedding, 0, cosineSim q v.embedding⟩ := by
    intro v
    simp [mkCand, hkw]
  have hfun : mkCand q al [] =
      fun v => (⟨v, cosineSim q v.embedding, 0, cosineSim q v.embedding⟩ : Cand) :=
    funext hmk
  simp only [candidatesFor, pureSimilarityRanking, hfun]

/-! ### Alias-map invariant (C8) -/

theorem amGet_amSet (m : AliasMap) (k : String) (v : List String) (k' : String) :
    amGet (amSet m k v) k' = if k' = k then some v else amGet m k' := by
  induction m with
  | nil =>
      by_cases h : k = k'
      · simp [amSet, amGet, h]
      · simp [amSet, amGet, h, Ne.symm h]
  | cons hd tl ih =>
      rcases hd with ⟨hk, hv⟩
      by_cases h1 : hk = k
      · by_cases h2 : k = k'
        · simp [amSet, amGet, h1, h2]
        · simp [amSet, amGet, h1, h2, Ne.symm h2]
      · by_cases h2 : hk = k'
        · have hne : ¬k' = k := fun hh => h1 (h2.trans hh)
          simp [amSet, amGet, h1, h2, hne]
        · simp [amSet, amGet, h1, h2, ih]

theorem mem_addUniq_iff (l : List String) (x y : String) :
    y ∈ addUniq l x ↔ y ∈ l ∨ y = x := by
  by_cases h : x ∈ l
  · simp only [addUniq, if_pos h]
    constructor
    · exact Or.inl
    · rintro (hy | rfl) <;> assumption
  · simp [addUniq, if_neg h]

theorem mem_addUniq_self (l : List String) (x : String) : x ∈ addUniq l x :=
  (mem_addUniq_iff l x x).mpr (Or.inr rfl)

theorem mem_addUniq_of_mem {l : List String} {y : String} (x : String) (h : y ∈ l) :
    y ∈ addUniq l x :=
  (mem_addUniq_iff l x y).mpr (Or.inl h)

theorem mem_addAllUniq_of_mem {l : List String} {y : String} (h : y ∈ l)
    (xs : List String) : y ∈ addAllUniq l xs := by
  induction xs generalizing l with
  | nil => simpa [addAllUniq]
  | cons x xs ih =>
      simp only [addAllUniq, List.foldl_cons]
      exact ih (mem_addUniq_of_mem x h)

theorem mem_addAllUniq_of_mem_right {xs : List String} {y : String} (h : y ∈ xs)
    (l : List String) : y ∈ addAllUniq l xs := by
  induction xs generalizing l with
  | nil => cases h
  | cons x xs ih =>
      simp only [addAllUniq, List.foldl_cons]
      rcases List.mem_cons.mp h with rfl | hmem
      · exact mem_addAllUniq_of_mem (mem_addUniq_self l y) xs
      · exact ih hmem (addUniq l x)

theorem mem_variantsOf_self (n : String) : n ∈ variantsOf n :=
  mem_addAllUniq_of_mem_right (by simp) []

theorem keyinv_amSet {m : AliasMap} {k : String} {v : List String}
    (h : KeyInvariant m) (hv : k ∈ v) : KeyInvariant (amSet m k v) := by
  intro k' al hget
  rw [amGet_amSet] at hget
  by_cases hk : k' = k
  · rw [if_pos hk] at hget
    cases hget
    exact hk ▸ hv
  · rw [if_neg hk] at hget
    exact h _ _ hget

theorem amHas_amSet_self (m : AliasMap) (k : String) (v : List String) :
    amHas (amSet m k v) k = true := by
  simp [amHas, amGet_amSet]

theorem amHas_amSet_of {m : AliasMap} {k' : String} (k : String) (v : List String)
    (h : amHas m k' = true) : amHas (amSet m k v) k' = true := by
  unfold amHas at *
  rw [amGet_amSet]
  by_cases hk : k' = k
  · simp [hk]
  · simpa [hk] using h

theorem foldl_preserve {α β : Type} {P : α → Prop} (f : α → β → α)
    (h : ∀ a b, P a → P (f a b)) : ∀ (l : List β) (a : α), P a → P (l.foldl f a) := by
  intro l
  induction l with
  | nil => intro a ha; simpa using ha
  | cons x xs ih =>
      intro a ha
      simpa using ih (f a x) (h a x ha)

theorem inv_metaStep (v : KBEntry) (st : List String × AliasMap)
    (h : IndexInv st) : IndexInv (metaStep v st) := by
  unfold metaStep
  by_cases h1 : entryMetaModel v = ""
  · simpa [h1] using h
  · rw [if_neg h1]
    by_cases h2 : (normTokS (entryMetaModel v) ≠ "" && hasDigitL (normTokS (entryMetaModel v)).data) = true
    · rw [if_pos h2]
      set n := normTokS (entryMetaModel v)
      constructor
      · intro n' hn'
        rcases (mem_addUniq_iff _ _ _).mp hn' with hmem | rfl
        · by_cases hhas : amHas st.2 n
          · simpa [hhas] using h.1 n' hmem
          · simp only [hhas, if_neg, Bool.false_eq_true, if_false]
            exact amHas_amSet_of n [n] (h.1 n' hmem)
        · by_cases hhas : amHas st.2 n
          · simp [hhas]
          · simp only [hhas, Bool.false_eq_true, if_false]
            exact amHas_amSet_self st.2 n [n]
      · by_cases hhas : amHas st.2 n
        · simpa [hhas] using h.2
        · simp only [hhas, Bool.false_eq_true, if_false]
          exact keyinv_amSet h.2 (by simp)
    · rw [if_neg h2]
      exact h

theorem inv_mineAdd (st : List String × AliasMap) (n : String)
    (h : IndexInv st) : IndexInv (mineAdd st n) := by
  unfold mineAdd
  by_cases hhas : amHas st.2 n
  · obtain ⟨al, hal⟩ := Option.isSome_iff_exists.mp hhas
    simp only [hhas, if_pos, hal, Option.getD_some]
    constructor
    · intro n' hn'
      rcases (mem_addUniq_iff _ _ _).mp hn' with hmem | rfl
      · exact amHas_amSet_of n _ (h.1 n' hmem)
      · exact amHas_amSet_self _ _ _
    · exact keyinv_amSet h.2 (mem_addUniq_self al n)
  · simp only [hhas, Bool.false_eq_true, if_false, amGet_amSet, if_pos rfl, Option.getD_some]
    constructor
    · intro n' hn'
      rcases (mem_addUniq_iff _ _ _).mp hn' with hmem | rfl
      · exact amHas_amSet_of n _ (amHas_amSet_of n [] (h.1 n' hmem))
      · exact amHas_amSet_self _ _ _
    · intro k al hget
      rw [amGet_amSet] at hget
      by_cases hk : k = n
      · rw [if_pos hk] at hget
        cases hget
        exact hk ▸ mem_addUniq_self [] n
      · rw [if_neg hk, amGet_amSet, if_neg hk] at hget
        exact h.2 _ _ hget

theorem keyinv_variantAdd {m : AliasMap} (n : String)
    (h : KeyInvariant m) : KeyInvariant (variantAdd m n) := by
  unfold variantAdd
  cases hget : amGet m n with
  | none =>
      simp only [hget, Option.getD_none]
      apply keyinv_amSet h
      exact mem_addAllUniq_of_mem_right (mem_variantsOf_self n) []
  | some al =>
      simp only [hget, Option.getD_some]
      apply keyinv_amSet h
      exact mem_addAllUniq_of_mem (h _ _ hget) _

theorem amHas_variantAdd {m : AliasMap} {k : String} (n : String)
    (h : amHas m k = true) : amHas (variantAdd m n) k = true := by
  unfold variantAdd
  exact amHas_amSet_of n _ h

theorem inv_stepEntry (st : List String × AliasMap) (v : KBEntry)
    (h : IndexInv st) : IndexInv (stepEntry st v) := by
  unfold stepEntry
  by_cases htxt : entryText v = ""
  · simpa [htxt] using h
  · rw [if_neg htxt]
    have h1 : IndexInv (metaStep v st) := inv_metaStep v st h
    have h2 : IndexInv ((minedTokens (entryText v)).foldl mineAdd (metaStep v st)) :=
      foldl_preserve mineAdd inv_mineAdd _ _ h1
    set st2 := (minedTokens (entryText v)).foldl mineAdd (metaStep v st) with hst2
    constructor
    · intro n hn
      have hP : ∀ (m : AliasMap) (x : String),
          (∀ n' ∈ st2.1, amHas m n' = true) → ∀ n' ∈ st2.1, amHas (variantAdd m x) n' = true := by
        intro m x hm n' hn'
        exact amHas_variantAdd x (hm n' hn')
      have := foldl_preserve (P := fun m => ∀ n' ∈ st2.1, amHas m n' = true)
        variantAdd hP (minedTokens (entryText v)) st2.2 h2.1
      exact this n hn
    · exact foldl_preserve (P := KeyInvariant) variantAdd
        (fun m x hm => keyinv_variantAdd x hm) (minedTokens (entryText v)) st2.2 h2.2

/-- C8: after the model-token index is built, every canonical token — from
entry metadata as well as from mined text — has an alias-map entry whose
alias set contains the canonical token itself. -/
theorem c8_alias_self (vs : List KBEntry) (n : String)
    (h : n ∈ (buildModelIndex vs).1) :
    ∃ al, amGet (buildModelIndex vs).2 n = some al ∧ n ∈ al := by
  have hinv : IndexInv (buildModelIndex vs) := by
    unfold buildModelIndex
    apply foldl_preserve stepEntry inv_stepEntry
    constructor
    · intro n' hn'
      simp at hn'
    · intro k al hget
      simp [amGet] at hget
  have hhas := hinv.1 n h
  obtain ⟨al, hal⟩ := Option.isSome_iff_exists.mp hhas
  exact ⟨al, hal, hinv.2 n al hal⟩

/-- Witness for C8: the token mined from the concrete demo corpus. -/
theorem c8_witness :
    "dy-cs3000" ∈ (buildModelIndex demoCorpus1).1
    ∧ ∃ al, amGet (buildModelIndex demoCorpus1).2 "dy-cs3000" = some al ∧ "dy-cs3000" ∈ al :=
  ⟨by decide, c8_alias_self demoCorpus1 "dy-cs3000" (by decide)⟩

/-! ### Safety guard (C1) -/

theorem contactReplacedNudge_ne (m : String) : contactReplacedNudge m ≠ "" := by
  unfold contactReplacedNudge
  split <;> decide

theorem emptyGenNudge_ne (m : String) : emptyGenNudge m ≠ "" := by
  unfold emptyGenNudge
  split <;> decide

theorem contactReplacedNudge_clean (m : String) :
    containsS (contactReplacedNudge m) contactLine = false := by
  unfold contactReplacedNudge
  split <;> decide

theorem trimL_ne_nil {c : Char} (rest : List Char) (hc : isJsSpace c = false) :
    trimL (c :: rest) ≠ [] := by
  unfold trimL
  rw [List.dropWhile_cons]
  simp only [hc, Bool.false_eq_true, if_false]
  intro hcontra
  unfold dropTrailing at hcontra
  rw [List.reverse_eq_nil_iff, List.dropWhile_eq_nil_iff] at hcontra
  have := hcontra c (by simp)
  rw [hc] at this
  exact absurd this (by simp)

theorem joinSep_head_data (sep s : String) (l : List String) :
    ∃ rest, (joinSep sep (s :: l)).data = s.data ++ rest := by
  cases l with
  | nil => exact ⟨[], by simp [joinSep]⟩
  | cons b bs =>
      refine ⟨sep.data ++ (joinSep sep (b :: bs)).data, ?_⟩
      show (s ++ sep ++ joinSep sep (b :: bs)).data = _
      simp [String.data_append]

theorem trimS_contextOf_ne (cands : List Cand) (h : cands ≠ []) :
    trimS (contextOf cands) ≠ "" := by
  cases cands with
  | nil => exact absurd rfl h
  | cons c cs =>
      obtain ⟨rest, hdata⟩ :=
        joinSep_head_data "\n\n" ("【" ++ toString 1 ++ "】 " ++ entryText c.entry)
          (numberBlocks 2 cs)
      have hhead : (contextOf (c :: cs)).data
          = '【' :: (((toString 1 ++ "】 " ++ entryText c.entry).data) ++ rest) := by
        show (joinSep "\n\n" (numberBlocks 1 (c :: cs))).data = _
        unfold numberBlocks
        rw [hdata]
        simp [String.data_append, String.append_assoc]
      intro hcontra
      have hdat : trimL (contextOf (c :: cs)).data = [] := by
        have := congrArg String.data hcontra
        simpa [trimS] using this
      rw [hhead] at hdat
      exact trimL_ne_nil _ (by decide) hdat

theorem ragPath_gen (vs : List KBEntry) (req : AskRequest) (o : Oracles) (q : String) :
    (ragPath vs req o q).effects.genCalled = true →
    (ragPath vs req o q).answer = some (applySafety o.genText
      (contextOf (candidatesFor o.qVec vs (buildModelIndex vs).2 (stickyFor vs q req.history)))
      (detectResponseMode q)) := by
  simp only [ragPath]
  split
  · intro h
    simp at h
  · split
    · intro h
      simp at h
    · split
      · intro _
        rfl
      · intro h
        simp at h

/-- C1: if the assembled numbered context is non-empty and the generation
collaborator text contains the contact-fallback phrase, the emitted
answer does not contain that phrase; an empty generated text is never
emitted as-is — it becomes the deterministic nudge when context is
non-empty and the contact message when context is empty.  A non-empty
candidate list always yields a non-empty numbered context, and on the
generation path the handler emits exactly the guarded text. -/
theorem c1_no_contact_leak :
    (∀ g ctx m : String, trimS ctx ≠ "" → containsS g contactLine = true →
        containsS (applySafety g ctx m) contactLine = false)
    ∧ (∀ g ctx m : String, trimS ctx ≠ "" → g = "" →
        applySafety g ctx m = emptyGenNudge m ∧ applySafety g ctx m ≠ "")
    ∧ (∀ ctx m : String, trimS ctx = "" → applySafety "" ctx m = contactFallbackMsg)
    ∧ (∀ cands : List Cand, cands ≠ [] → trimS (contextOf cands) ≠ "")
    ∧ (∀ (vs : List KBEntry) (req : AskRequest) (o : Oracles),
        (runHandler vs req o).effects.genCalled = true →
        (runHandler vs req o).answer = some (applySafety o.genText
          (contextOf (candidatesFor o.qVec vs (buildModelIndex vs).2
            (stickyFor vs (trimS req.message) req.history)))
          (detectResponseMode (trimS req.message)))) := by
  refine ⟨?_, ?_, ?_, trimS_contextOf_ne, ?_⟩
  · intro g ctx m h1 h2
    have hb : (trimS ctx == "") = false := beq_eq_false_iff_ne.mpr h1
    simp only [applySafety, h2, hb, Bool.not_false, Bool.and_true, if_true]
    rw [if_neg (contactReplacedNudge_ne m)]
    exact contactReplacedNudge_clean m
  · intro g ctx m h1 h2
    subst h2
    have hb : (trimS ctx == "") = false := beq_eq_false_iff_ne.mpr h1
    have hcc : containsS "" contactLine = false := by decide
    have haux : applySafety "" ctx m = emptyGenNudge m := by
      simp only [applySafety, hcc, hb]
      simp
    refine ⟨haux, ?_⟩
    rw [haux]
    exact emptyGenNudge_ne m
  · intro ctx m h1
    have hb : (trimS ctx == "") = true := beq_iff_eq.mpr h1
    have hcc : containsS "" contactLine = false := by decide
    simp only [applySafety, hcc, hb]
    simp
  · intro vs req o
    simp only [runHandler]
    split
    · intro h
      simp at h
    · split
      · split
        · intro h
          simp at h
        · exact ragPath_gen vs req o _
      · exact ragPath_gen vs req o _

/-- Witness for C1 at a concrete leaked generation text and context. -/
theorem c1_witness :
    containsS (applySafety ("Please contact our sales team at x") "【1】 DY-CS3000" "english")
        contactLine = false
    ∧ applySafety "" "【1】 DY-CS3000" "english" = emptyGenNudge "english" :=
  ⟨c1_no_contact_leak.1 _ _ _ (by decide) (by decide),
   (c1_no_contact_leak.2.1 _ _ _ (by decide) rfl).1⟩

/-! ### Cascade facts (C3, C4) -/

theorem makeHello_ne (r : Nat) : makeSmallTalkReply "hello" "english" r ≠ "" := by
  unfold makeSmallTalkReply bankFor pickArr
  rcases Nat.mod_two_eq_zero_or_one r with h | h <;> simp [h]

theorem runHandler_smallTalk (vs : List KBEntry) (req : AskRequest) (o : Oracles) (t : String)
    (hst : handleSmallTalkAll (trimS req.message) req.isFirstTurn o.rand o.istHour = some t)
    (hne : t ≠ "") (hnot400 : ¬(trimS req.message = "" ∧ req.isFirstTurn = false)) :
    runHandler vs req o = ⟨200, some t, none,
      ⟨[("user", trimS req.message), ("assistant", t)], false, false⟩⟩ := by
  have h400 : (decide (trimS req.message = "") && !req.isFirstTurn) = false := by
    by_cases h1 : trimS req.message = ""
    · by_cases h2 : req.isFirstTurn
      · simp [h1, h2]
      · exact absurd ⟨h1, by simpa using h2⟩ hnot400
    · simp [h1]
  simp only [runHandler, h400, Bool.false_eq_true, if_false, hst]
  rw [if_pos hne]

theorem runHandler_noSmallTalk (vs : List KBEntry) (req : AskRequest) (o : Oracles)
    (hst : handleSmallTalkAll (trimS req.message) req.isFirstTurn o.rand o.istHour = none)
    (hnot400 : ¬(trimS req.message = "" ∧ req.isFirstTurn = false)) :
    runHandler vs req o = ragPath vs req o (trimS req.message) := by
  have h400 : (decide (trimS req.message = "") && !req.isFirstTurn) = false := by
    by_cases h1 : trimS req.message = ""
    · by_cases h2 : req.isFirstTurn
      · simp [h1, h2]
      · exact absurd ⟨h1, by simpa using h2⟩ hnot400
    · simp [h1]
  simp only [runHandler, h400, Bool.false_eq_true, if_false, hst]

theorem ragPath_embedCalled (vs : List KBEntry) (req : AskRequest) (o : Oracles) (q : String)
    (h : ¬vs.length = 0) : (ragPath vs req o q).effects.embedCalled = true := by
  simp only [ragPath]
  rw [if_neg h]
  split
  · rfl
  · split <;> rfl

/-- Counterexample for C3: the phone-number greeting message
contains a contact keyword ("phone") yet is classified as small talk
("hello") by the cascade, and the reply is a greeting, not a
contact-details reply — there is no contact-intent branch in the code. -/
theorem c3_contact_keyword_counterexample :
    smallTalkMatch c3query = some "hello"
    ∧ handleSmallTalkAll c3query false 0 12 = some "Hi! How can I help today?" :=
  ⟨by decide, by decide⟩

/-- C3 (amended): the cascade has no contact-intent branch; a message
containing a contact keyword is handled like any other.  In particular
the phone-number greeting message matches the small-talk hello pattern, the
reply is the hello-bank greeting, and the handler short-circuits without
calling the embedding or generation collaborator. -/
theorem c3_cascade_amended :
    smallTalkMatch c3query = some "hello"
    ∧ (∀ r hour : Nat, handleSmallTalkAll c3query false r hour
        = some (makeSmallTalkReply "hello" "english" r))
    ∧ (∀ (vs : List KBEntry) (o : Oracles) (hist : List Turn),
        (runHandler vs ⟨c3query, false, hist⟩ o).effects.genCalled = false
        ∧ (runHandler vs ⟨c3query, false, hist⟩ o).effects.embedCalled = false
        ∧ (runHandler vs ⟨c3query, false, hist⟩ o).answer
            = some (makeSmallTalkReply "hello" "english" o.rand)) := by
  have htrim : trimS c3query = c3query := by decide
  refine ⟨by decide, ?_, ?_⟩
  · intro r hour
    rfl
  · intro vs o hist
    have hst : handleSmallTalkAll (trimS c3query) false o.rand o.istHour
        = some (makeSmallTalkReply "hello" "english" o.rand) := by
      rw [htrim]
      rfl
    have hrun := runHandler_smallTalk vs ⟨c3query, false, hist⟩ o _ hst
      (makeHello_ne o.rand) (fun hcontra => absurd (htrim ▸ hcontra.1) (by decide))
    rw [hrun]
    exact ⟨rfl, rfl, rfl⟩

/-- Counterexample for C4: for the request "remember my city is Chennai"
the handler calls the embedding collaborator (retrieval is performed); no
explicit-command branch exists and no fact is stored. -/
theorem c4_remember_counterexample :
    (runHandler demoCorpus1 ⟨"remember my city is Chennai", false, []⟩
        ⟨[1, 0], "", 0, 12⟩).effects.embedCalled = true := by
  have htrim : trimS "remember my city is Chennai" = "remember my city is Chennai" := by decide
  have hst : handleSmallTalkAll (trimS "remember my city is Chennai") false 0 12 = none := by
    rw [htrim]
    decide
  have hrun := runHandler_noSmallTalk demoCorpus1
    ⟨"remember my city is Chennai", false, []⟩ ⟨[1, 0], "", 0, 12⟩ hst
    (fun hcontra => absurd (htrim ▸ hcontra.1) (by decide))
  rw [hrun]
  exact ragPath_embedCalled _ _ _ _ (by decide)

/-- C4 (amended): there is no explicit-command branch; "remember my city is
Chennai" matches no cascade pattern (the small-talk stage returns nothing
for any turn flag, random draw and hour) and the request is processed as a
knowledge question through retrieval — the embedding collaborator is
called whenever the corpus is loaded. -/
theorem c4_remember_amended :
    (∀ (first : Bool) (r hour : Nat),
      handleSmallTalkAll "remember my city is Chennai" first r hour = none)
    ∧ (∀ (o : Oracles) (hist : List Turn),
        Effects.embedCalled (HandlerResult.effects (runHandler demoCorpus1
          ⟨"remember my city is Chennai", false, hist⟩ o)) = true) := by
  have htrim : trimS "remember my city is Chennai" = "remember my city is Chennai" := by decide
  constructor
  · intro first r hour
    cases first <;> rfl
  · intro o hist
    have hst : handleSmallTalkAll (trimS "remember my city is Chennai") false o.rand o.istHour
        = none := by
      rw [htrim]
      cases hf : false <;> rfl
    have hrun := runHandler_noSmallTalk demoCorpus1
      ⟨"remember my city is Chennai", false, hist⟩ o hst
      (fun hcontra => absurd (htrim ▸ hcontra.1) (by decide))
    rw [hrun]
    exact ragPath_embedCalled _ _ _ _ (by decide)

/-! ### Concrete retrieval computations (C2) -/

theorem cos_one_neg : cosineSim [(1 : ℝ), 0] [(-1 : ℝ), 0] = -1 := by
  rw [cosineSim_normal]
  have hmag1 : prefixMag [(1 : ℝ), 0] [(-1 : ℝ), 0] = 1 := by
    unfold prefixMag
    norm_num [dotPrefix, List.take_succ_cons]
  have hmag2 : prefixMag [(-1 : ℝ), 0] [(1 : ℝ), 0] = 1 := by
    unfold prefixMag
    norm_num [dotPrefix, List.take_succ_cons]
  rw [hmag1, hmag2]
  norm_num [dotPrefix]

theorem mkCand_demoE1 :
    mkCand demoQVec (buildModelIndex demoCorpus1).2 ["cs3000"] demoE1 = candE1 := by
  have hkw : kwScoreFor (buildModelIndex demoCorpus1).2 demoE1 ["cs3000"] = 1 := by decide
  unfold mkCand candE1
  rw [show demoE1.embedding = [(-1 : ℝ), 0] from rfl,
    show demoQVec = [(1 : ℝ), 0] from rfl, cos_one_neg, hkw]
  norm_num [HYBRID_BONUS]

theorem mkCand_demoEA :
    mkCand demoQVec (buildModelIndex demoCorpus2).2 ["dy-1206h"] demoEA = candA := by
  have hkw : kwScoreFor (buildModelIndex demoCorpus2).2 demoEA ["dy-1206h"] = 0 := by decide
  unfold mkCand candA
  rw [show demoEA.embedding = [(-1 : ℝ), 0] from rfl,
    show demoQVec = [(1 : ℝ), 0] from rfl, cos_one_neg, hkw]
  norm_num

theorem mkCand_demoEB :
    mkCand demoQVec (buildModelIndex demoCorpus2).2 ["dy-1206h"] demoEB = candB := by
  have hkw : kwScoreFor (buildModelIndex demoCorpus2).2 demoEB ["dy-1206h"] = 1 := by decide
  unfold mkCand candB
  rw [show demoEB.embedding = [(-1 : ℝ), 0] from rfl,
    show demoQVec = [(1 : ℝ), 0] from rfl, cos_one_neg, hkw]
  norm_num [HYBRID_BONUS]

theorem cands_demo1 :
    candidatesFor demoQVec demoCorpus1 (buildModelIndex demoCorpus1).2 ["cs3000"]
      = [candE1] := by
  show List.take TOP_K (sortDesc (List.map
    (mkCand demoQVec (buildModelIndex demoCorpus1).2 ["cs3000"]) [demoE1])) = [candE1]
  rw [List.map_cons, List.map_nil, mkCand_demoE1]
  rfl

theorem cands_demo2 :
    candidatesFor demoQVec demoCorpus2 (buildModelIndex demoCorpus2).2 ["dy-1206h"]
      = [candB, candA] := by
  show List.take TOP_K (sortDesc (List.map
    (mkCand demoQVec (buildModelIndex demoCorpus2).2 ["dy-1206h"]) [demoEA, demoEB]))
      = [candB, candA]
  rw [List.map_cons, List.map_cons, List.map_nil, mkCand_demoEA, mkCand_demoEB]
  show List.take TOP_K (insertDesc candA (insertDesc candB [])) = [candB, candA]
  rw [show insertDesc candB [] = [candB] from rfl]
  unfold insertDesc
  rw [if_neg (by norm_num [candA, candB] : ¬ candB.score ≤ candA.score)]
  rfl

/-- Counterexample for C2: with the corpus `["DY_1206H", "The DY 1206H
unit."]` and query "dy-1206h cost", the alias "dy 1206h" of the sticky
entity "dy-1206h" literally appears in a top-K candidate text (the
spec entity-lock condition holds), the top score is `-0.88 < 0.12`, yet
the code gate does not pass — it only checks the canonical token, which
appears in no candidate.  The claimed "if and only if" is therefore false
at this input. -/
theorem c2_alias_lock_counterexample :
    ¬(passableFor (candidatesFor demoQVec demoCorpus2 (buildModelIndex demoCorpus2).2
          (stickyFor demoCorpus2 "dy-1206h cost" []))
        (stickyFor demoCorpus2 "dy-1206h cost" [])
      ↔ (topScore (candidatesFor demoQVec demoCorpus2 (buildModelIndex demoCorpus2).2
            (stickyFor demoCorpus2 "dy-1206h cost" [])) ≥ MIN_OK_SCORE - 0.04
          ∨ specEntityLock (buildModelIndex demoCorpus2)
              (candidatesFor demoQVec demoCorpus2 (buildModelIndex demoCorpus2).2
                (stickyFor demoCorpus2 "dy-1206h cost" []))
              (stickyFor demoCorpus2 "dy-1206h cost" []))) := by
  have hsticky : stickyFor demoCorpus2 "dy-1206h cost" [] = ["dy-1206h"] := by decide
  rw [hsticky, cands_demo2]
  intro hiff
  have hlock : specEntityLock (buildModelIndex demoCorpus2) [candB, candA] ["dy-1206h"] := by
    refine ⟨"dy-1206h", by simp, "dy 1206h", by decide, candB, by simp, by decide⟩
  have hnP : ¬passableFor [candB, candA] ["dy-1206h"] := by
    unfold passableFor
    rintro (h | h)
    · rw [show topScore [candB, candA] = candB.score from rfl] at h
      norm_num [candB, MIN_OK_SCORE] at h
    · have : modelFoundInTop [candB, candA] ["dy-1206h"] = false := by decide
      rw [this] at h
      exact absurd h (by simp)
  exact hnP (hiff.mpr (Or.inr hlock))

/-- C2 (amended): retrieval passes iff the top-1 composite score is at
least `MIN_OK_SCORE − 0.04` **or** some sticky entity *canonical token*
(itself one of its aliases) literally appears in the lower-cased text of
one of the top-K candidates.  The concrete DY-CS3000 scenario holds: for
the corpus entry containing "DY-CS3000" and the query "cs3000 price" with
cosine similarity `-1 < MIN_OK_SCORE`, retrieval passes via this lock and
the entry is among the returned candidates. -/
theorem c2_passability_amended :
    (∀ (cands : List Cand) (sticky : List String),
        passableFor cands sticky ↔
          (topScore cands ≥ MIN_OK_SCORE - 0.04
            ∨ (sticky ≠ [] ∧ ∃ c ∈ cands, ∃ m ∈ sticky,
                containsS (lowerS (entryText c.entry)) m = true)))
    ∧ (cosineSim demoQVec demoE1.embedding < MIN_OK_SCORE
        ∧ passableFor (candidatesFor demoQVec demoCorpus1 (buildModelIndex demoCorpus1).2
            (stickyFor demoCorpus1 "cs3000 price" []))
            (stickyFor demoCorpus1 "cs3000 price" [])
        ∧ demoE1 ∈ (candidatesFor demoQVec demoCorpus1 (buildModelIndex demoCorpus1).2
            (stickyFor demoCorpus1 "cs3000 price" [])).map Cand.entry) := by
  have hsticky : stickyFor demoCorpus1 "cs3000 price" [] = ["cs3000"] := by decide
  constructor
  · intro cands sticky
    unfold passableFor
    constructor
    · rintro (h | h)
      · exact Or.inl h
      · right
        unfold modelFoundInTop at h
        simp only [Bool.and_eq_true, decide_eq_true_eq, List.any_eq_true] at h
        obtain ⟨hlen, c, hc, m, hm, hcontains⟩ := h
        exact ⟨List.length_pos.mp hlen, c, hc, m, hm, hcontains⟩
    · rintro (h | ⟨hne, c, hc, m, hm, hcont⟩)
      · exact Or.inl h
      · right
        unfold modelFoundInTop
        simp only [Bool.and_eq_true, decide_eq_true_eq, List.any_eq_true]
        exact ⟨List.length_pos.mpr hne, c, hc, m, hm, hcont⟩
  · refine ⟨?_, ?_, ?_⟩
    · rw [show demoE1.embedding = [(-1 : ℝ), 0] from rfl,
        show demoQVec = [(1 : ℝ), 0] from rfl, cos_one_neg]
      norm_num [MIN_OK_SCORE]
    · rw [hsticky, cands_demo1]
      unfold passableFor
      right
      decide
    · rw [hsticky, cands_demo1]
      simp [candE1]

/-- Witness for the amended C2 gate at the concrete scenario candidates. -/
theorem c2_witness :
    passableFor (candidatesFor demoQVec demoCorpus1 (buildModelIndex demoCorpus1).2
        (stickyFor demoCorpus1 "cs3000 price" []))
        (stickyFor demoCorpus1 "cs3000 price" [])
      ↔ (topScore (candidatesFor demoQVec demoCorpus1 (buildModelIndex demoCorpus1).2
            (stickyFor demoCorpus1 "cs3000 price" [])) ≥ MIN_OK_SCORE - 0.04
          ∨ (stickyFor demoCorpus1 "cs3000 price" [] ≠ [] ∧
              ∃ c ∈ candidatesFor demoQVec demoCorpus1 (buildModelIndex demoCorpus1).2
                (stickyFor demoCorpus1 "cs3000 price" []),
                ∃ m ∈ stickyFor demoCorpus1 "cs3000 price" [],
                  containsS (lowerS (entryText c.entry)) m = true)) :=
  c2_passability_amended.1 _ _
